import Mathlib

/-!
Verification of the pyamlboot Amlogic USB boot/burn driver.

Shallow embedding of `src/adnl.py` (new-generation ADNL protocol session)
and `src/pyamlboot/pyamlboot.py` (legacy ROM/TPL session).  Byte buffers
are modelled as `List Nat` (each entry one byte), machine 32-bit
arithmetic as `Nat` with explicit `% 4294967296` (= 2^32) where the
source masks with `0xffffffff`.  Fallible Python code (raised exceptions)
is modelled with `Except`/`Option` results.
-/

/-- Little-endian interpretation of a byte list, modelling Python's
`int.from_bytes(buf, 'little')`. -/
def fromLE (l : List Nat) : Nat :=
  l.foldr (fun b acc => b + 256 * acc) 0

/-- Sum of the little-endian 32-bit words of a buffer, modelling the
generator sum in `adnl_checksum` (`src/adnl.py` lines 123-127):
`sum(int.from_bytes(buf[i:i + 4], 'little') for i in range(0, len(buf), 4))`.
A final fragment shorter than 4 bytes is read as-is (Python slicing
truncates), which is the same value as zero-padding to the right. -/
def chunksum : List Nat → Nat
  | [] => 0
  | [a] => fromLE [a]
  | [a, b] => fromLE [a, b]
  | [a, b, c] => fromLE [a, b, c]
  | a :: b :: c :: d :: rest => fromLE [a, b, c, d] + chunksum rest

/-- Model of `adnl_checksum` (`src/adnl.py` lines 123-127).  The source
masks the total with `& 0xffffffff`, i.e. reduces modulo 2^32. -/
def adnl_checksum (buf : List Nat) : Nat :=
  chunksum buf % 4294967296

/-- Loop body of `AmlogicSoC._amlsChecksum` (`src/pyamlboot/pyamlboot.py`
lines 468-487).  The accumulator is reduced `% uint32_max` after every
word, a 3-byte tail is zero-padded then masked `& 0xffffff` (= `% 2^24`),
a 2-byte tail is read as `<H`.  A 1-byte tail executes
`unpack('<B', data[offset])`: in Python 3 `data[offset]` is an `int`,
not a buffer, so `unpack` raises a `TypeError`; that failure is
modelled as `none`. -/
def amlsLoop (acc : Nat) : List Nat → Option Nat
  | [] => some acc
  | [_] => none
  | [a, b] => some ((acc + fromLE [a, b]) % 4294967296)
  | [a, b, c] => some ((acc + fromLE [a, b, c, 0] % 16777216) % 4294967296)
  | a :: b :: c :: d :: rest => amlsLoop ((acc + fromLE [a, b, c, d]) % 4294967296) rest

/-- Model of `AmlogicSoC._amlsChecksum` (`src/pyamlboot/pyamlboot.py`
lines 468-487). -/
def amlsChecksum (data : List Nat) : Option Nat :=
  amlsLoop 0 data

/-- The word sum of a 4-byte-aligned buffer distributes over
concatenation. -/
theorem chunksum_append : ∀ (B C : List Nat), B.length % 4 = 0 →
    chunksum (B ++ C) = chunksum B + chunksum C
  | [], C, _ => by simp [chunksum]
  | [_], _, h => by simp at h
  | [_, _], _, h => by simp at h
  | [_, _, _], _, h => by simp at h
  | a :: b :: c :: d :: rest, C, h => by
    have h4 : rest.length % 4 = 0 := by
      simp only [List.length_cons] at h
      omega
    simp only [List.cons_append, chunksum, List.append_eq]
    rw [chunksum_append rest C h4]
    ring

/-- C3: for every byte buffer `B` with `|B| % 4 == 0`,
`adnl_checksum (B ++ [0x00]) = adnl_checksum B`, and for all buffers
`B1`, `B2` with `|B1| % 4 == 0`,
`adnl_checksum (B1 ++ B2) = (adnl_checksum B1 + adnl_checksum B2) mod 2^32`. -/
theorem adnl_checksum_addsum_laws (B B1 B2 : List Nat)
    (hB : B.length % 4 = 0) (hB1 : B1.length % 4 = 0) :
    adnl_checksum (B ++ [0]) = adnl_checksum B ∧
    adnl_checksum (B1 ++ B2) =
      (adnl_checksum B1 + adnl_checksum B2) % 4294967296 := by
  constructor
  · unfold adnl_checksum
    rw [chunksum_append B [0] hB]
    simp [chunksum, fromLE]
  · unfold adnl_checksum
    rw [chunksum_append B1 B2 hB1, Nat.add_mod]

/-- Witness for C3 at concrete buffers. -/
theorem adnl_checksum_addsum_laws_witness :
    ([1, 2, 3, 4] : List Nat).length % 4 = 0 ∧
    (adnl_checksum ([1, 2, 3, 4] ++ [0]) = adnl_checksum [1, 2, 3, 4] ∧
     adnl_checksum ([1, 2, 3, 4] ++ [5, 6]) =
       (adnl_checksum [1, 2, 3, 4] + adnl_checksum [5, 6]) % 4294967296) :=
  ⟨by decide, adnl_checksum_addsum_laws [1, 2, 3, 4] [1, 2, 3, 4] [5, 6]
    (by decide) (by decide)⟩

/-- Error raised by `send_cmd` (`src/adnl.py` lines 130-148): either the
reply was shorter than 4 bytes, or the 4-byte reply header differed from
the expected one.  The `unexpected` error carries exactly the data
interpolated into the source's message
`'Unexpected reply:' + header + ' to cmd:' + cmd`. -/
inductive SendCmdErr where
  | tooShort (len : Nat)
  | unexpected (header : String) (cmd : String)
  deriving DecidableEq

/-- Rendering of `SendCmdErr` as the exact `RuntimeError` message text of
`send_cmd` in `src/adnl.py`. -/
def sendCmdErrMsg : SendCmdErr → String
  | .tooShort n => "Too short reply: " ++ toString n
  | .unexpected h c => "Unexpected reply:" ++ h ++ " to cmd:" ++ c

/-- Model of `send_cmd` (`src/adnl.py` lines 130-148).  The USB exchange
is abstracted by passing the bytes read from bulk-IN as `reply`; the
reply header is `msg[:4]` (`adnl_get_prefix`). -/
def send_cmd (cmd reply expected : String) : Except SendCmdErr String :=
  if reply.length < 4 then .error (.tooShort reply.length)
  else
    let header := reply.take 4
    if header ≠ expected then .error (.unexpected header cmd)
    else .ok reply

/-- Model of the verification poll at the end of `tpl_burn_partition`
(`src/adnl.py` lines 307-321).  `partName` is the partition being
verified (in scope in the source, but unused by the loop), `sleeps`
counts the `time.sleep(1)` calls performed so far, and `replies` scripts
the successive bulk-IN reads.  An `INFO` header sleeps one second and
re-reads; an `OKAY` header ends the poll successfully; any other header
raises `RuntimeError('CRC error for partition')`.  An exhausted script
(device never answers) is `none`. -/
def tplVerifyPoll (partName : String) (sleeps : Nat) :
    List String → Option (Except String Nat)
  | [] => none
  | r :: rest =>
    if r.take 4 = "INFO" then tplVerifyPoll partName (sleeps + 1) rest
    else if r.take 4 = "OKAY" then some (.ok sleeps)
    else some (.error "CRC error for partition")

/-- Model of the slicing logic of `get_chipinfo` (`src/adnl.py` lines
186-195).  `payload` is the reply with its 4-byte header already cut off
(`msg[4:]`), and `offset`/`nbytes` are the explicit arguments (the
`None` defaults resolve to `0` and the payload length).  The source
raises iff `offset > 0 and offset + nbytes >= msg.buffer_info()[1]`, and
otherwise returns the (possibly truncated) slice
`msg[offset : offset + nbytes]`. -/
def get_chipinfo_slice (payload : List Nat) (offset nbytes : Nat) :
    Except String (List Nat) :=
  if 0 < offset ∧ payload.length ≤ offset + nbytes then
    .error "Bad parameters: out of bound access"
  else .ok ((payload.drop offset).take nbytes)

/-- C9: on a buffer of length 1 (so `|B| mod 4 == 1`) the legacy
`_amlsChecksum` does not compute the addsum at all: its 1-byte tail case
raises (`unpack('<B', data[offset])` is applied to an `int`), while
`adnl_checksum` returns the byte value, here 7.  So the two checksums do
not agree on all buffers. -/
theorem amlsChecksum_one_byte_tail_fails :
    amlsChecksum [7] = none ∧ adnl_checksum [7] = 7 ∧
    amlsChecksum [7] ≠ some (adnl_checksum [7]) :=
  ⟨rfl, by decide, by decide⟩

/-- C2 (amended): `send_cmd cmd reply P` returns the raw reply iff the
reply is at least 4 bytes long and begins with `P`; a shorter reply
errors with the too-short error; a reply with any other header errors
with a protocol error whose message names the received header and the
offending command (the expected header is not part of the message). -/
theorem send_cmd_dispatch (cmd reply expected : String) :
    (send_cmd cmd reply expected = .ok reply ↔
      4 ≤ reply.length ∧ reply.take 4 = expected) ∧
    (reply.length < 4 →
      send_cmd cmd reply expected = .error (.tooShort reply.length)) ∧
    (4 ≤ reply.length → reply.take 4 ≠ expected →
      send_cmd cmd reply expected = .error (.unexpected (reply.take 4) cmd) ∧
      (reply.take 4).toList <:+:
        (sendCmdErrMsg (.unexpected (reply.take 4) cmd)).toList ∧
      cmd.toList <:+:
        (sendCmdErrMsg (.unexpected (reply.take 4) cmd)).toList) := by
  refine ⟨?_, ?_, ?_⟩
  · by_cases h1 : reply.length < 4
    · simp [send_cmd, h1]
    · by_cases h2 : reply.take 4 = expected
      · simp [send_cmd, h1, h2]
        omega
      · simp [send_cmd, h1, h2]
  · intro h1
    simp [send_cmd, h1]
  · intro h1 h2
    refine ⟨by simp [send_cmd, h2]; omega, ?_, ?_⟩
    · show (reply.take 4).toList <:+:
        ("Unexpected reply:" ++ reply.take 4 ++ " to cmd:" ++ cmd).toList
      have : ("Unexpected reply:" ++ reply.take 4 ++ " to cmd:" ++ cmd).toList
          = "Unexpected reply:".toList ++ (reply.take 4).toList ++
            (" to cmd:".toList ++ cmd.toList) := by
        simp [String.toList, String.data_append]
      rw [this]
      exact List.infix_append _ _ _
    · show cmd.toList <:+:
        ("Unexpected reply:" ++ reply.take 4 ++ " to cmd:" ++ cmd).toList
      have : ("Unexpected reply:" ++ reply.take 4 ++ " to cmd:" ++ cmd).toList
          = ("Unexpected reply:".toList ++ (reply.take 4).toList ++
             " to cmd:".toList) ++ cmd.toList := by
        simp [String.toList, String.data_append]
      rw [this]
      exact (List.suffix_append _ _).isInfix

/-- Witness for C2 at concrete strings. -/
theorem send_cmd_dispatch_witness :
    send_cmd "getvar:cbw" "FAILxyz" "OKAY" =
      .error (.unexpected "FAIL" "getvar:cbw") :=
  ((send_cmd_dispatch "getvar:cbw" "FAILxyz" "OKAY").2.2
    (by decide) (by decide)).1

/-- C2 counterexample: the claim says the protocol error names both the
expected and the received header, but with expected header `OKAY` and
reply `FAILxyz` the raised message is
`Unexpected reply:FAIL to cmd:getvar:cbw`, which does not contain the
expected header `OKAY`. -/
theorem send_cmd_error_omits_expected :
    send_cmd "getvar:cbw" "FAILxyz" "OKAY" =
      .error (.unexpected "FAIL" "getvar:cbw") ∧
    sendCmdErrMsg (.unexpected "FAIL" "getvar:cbw") =
      "Unexpected reply:FAIL to cmd:getvar:cbw" ∧
    ¬ ("OKAY".toList <:+:
      (sendCmdErrMsg (.unexpected "FAIL" "getvar:cbw")).toList) := by
  refine ⟨by rfl, by decide, by decide⟩

/-- C7 (amended): in the partition verification poll, an `INFO` reply
causes one `sleep(1)` followed by a re-read, an `OKAY` reply ends the
verification successfully, and any other reply raises a verification
error — whose message is the constant `CRC error for partition` and in
particular does not depend on the partition being verified. -/
theorem tplVerifyPoll_spec (partName r : String) (rest : List String)
    (sleeps : Nat) :
    (r.take 4 = "INFO" →
      tplVerifyPoll partName sleeps (r :: rest) =
        tplVerifyPoll partName (sleeps + 1) rest) ∧
    (r.take 4 = "OKAY" →
      tplVerifyPoll partName sleeps (r :: rest) = some (.ok sleeps)) ∧
    (r.take 4 ≠ "INFO" → r.take 4 ≠ "OKAY" →
      tplVerifyPoll partName sleeps (r :: rest) =
        some (.error "CRC error for partition")) := by
  refine ⟨?_, ?_, ?_⟩
  · intro h
    simp [tplVerifyPoll, h]
  · intro h
    have h' : ¬ (r.take 4 = "INFO") := by
      rw [h]
      decide
    simp [tplVerifyPoll, h, h']
  · intro h1 h2
    simp [tplVerifyPoll, h1, h2]

/-- Witness for C7: a three-reply script `INFO, INFO, OKAY` ends
successfully after two sleeps, and a `FAIL` reply raises. -/
theorem tplVerifyPoll_spec_witness :
    tplVerifyPoll "boot" 0 ["INFO", "INFO", "OKAY"] = some (.ok 2) ∧
    tplVerifyPoll "boot" 0 ["FAIL"] =
      some (.error "CRC error for partition") := by
  constructor
  · rw [(tplVerifyPoll_spec "boot" "INFO" ["INFO", "OKAY"] 0).1 (by decide),
      (tplVerifyPoll_spec "boot" "INFO" ["OKAY"] 1).1 (by decide)]
    exact (tplVerifyPoll_spec "boot" "OKAY" [] 2).2.1 (by decide)
  · exact (tplVerifyPoll_spec "boot" "FAIL" [] 0).2.2 (by decide) (by decide)

/-- C7 counterexample: for partition `boot`, the reply `FAIL` raises the
constant message `CRC error for partition`, which does not contain the
partition name `boot` — the error does not name the partition being
verified. -/
theorem tplVerifyPoll_error_omits_partition :
    tplVerifyPoll "boot" 0 ["FAIL"] =
      some (.error "CRC error for partition") ∧
    ¬ ("boot".toList <:+: "CRC error for partition".toList) := by
  refine ⟨by rfl, by decide⟩

/-- C10: `get_chipinfo` raises its out-of-bound error iff `offset > 0`
and `offset + nbytes >= payload length`; with `offset = 0` no bound is
enforced and an oversized request returns the silently truncated slice;
with `offset > 0` a request whose end equals the payload length exactly
raises even though that slice is in bounds (it has exactly `nbytes`
elements). -/
theorem get_chipinfo_slice_spec (payload : List Nat) (offset nbytes : Nat) :
    ((∃ e, get_chipinfo_slice payload offset nbytes = .error e) ↔
      0 < offset ∧ payload.length ≤ offset + nbytes) ∧
    (offset = 0 →
      get_chipinfo_slice payload offset nbytes = .ok (payload.take nbytes)) ∧
    (0 < offset → offset + nbytes = payload.length →
      get_chipinfo_slice payload offset nbytes =
        .error "Bad parameters: out of bound access" ∧
      ((payload.drop offset).take nbytes).length = nbytes) := by
  by_cases h : 0 < offset ∧ payload.length ≤ offset + nbytes
  · refine ⟨?_, ?_, ?_⟩
    · simp [get_chipinfo_slice, h]
    · intro h0
      omega
    · intro h1 h2
      refine ⟨by simp [get_chipinfo_slice, h], ?_⟩
      simp [List.length_take, List.length_drop]
      omega
  · refine ⟨?_, ?_, ?_⟩
    · simp [get_chipinfo_slice, h]
    · intro h0
      subst h0
      simp [get_chipinfo_slice, h]
    · intro h1 h2
      exact absurd ⟨h1, by omega⟩ h

/-- Witness for C10 at concrete inputs: with `offset = 0` an oversized
request is silently truncated, and with `offset > 0` a request whose end
equals the payload length raises. -/
theorem get_chipinfo_slice_spec_witness :
    get_chipinfo_slice [1, 2, 3] 0 5 = .ok (List.take 5 [1, 2, 3]) ∧
    get_chipinfo_slice [1, 2, 3] 1 2 =
      .error "Bad parameters: out of bound access" :=
  ⟨(get_chipinfo_slice_spec [1, 2, 3] 0 5).2.1 rfl,
   ((get_chipinfo_slice_spec [1, 2, 3] 1 2).2.2 (by decide) (by decide)).1⟩

/-- Model of the `Stage` enum (`src/adnl.py` lines 42-68), with the wire
codes `ROM = 0`, `SPL = 8`, `TPL = 16` carried by `Stage.code`. -/
inductive Stage where
  | ROM
  | SPL
  | TPL
  deriving DecidableEq

/-- Wire codes of the `Stage` `IntEnum` members. -/
def Stage.code : Stage → Nat
  | .ROM => 0
  | .SPL => 8
  | .TPL => 16

/-- Display names from the dynamic `name` attribute of `Stage`
(`src/adnl.py` lines 50-68). -/
def Stage.displayName : Stage → String
  | .ROM => "BootROM"
  | .SPL => "BL2"
  | .TPL => "U-Boot"

/-- Model of the `SocFamily` enum (`src/adnl.py` lines 71-82), with
`SocFamily.fid` carrying the numeric IDs. -/
inductive SocFamily where
  | A1
  | C1
  | SC2
  | C2
  | T5
  | T5D
  | T7
  | S4
  deriving DecidableEq

/-- Numeric IDs of the `SocFamily` members. -/
def SocFamily.fid : SocFamily → Nat
  | .A1 => 0x2c
  | .C1 => 0x30
  | .SC2 => 0x32
  | .C2 => 0x33
  | .T5 => 0x34
  | .T5D => 0x35
  | .T7 => 0x36
  | .S4 => 0x37

/-- Name strings of the `SocFamily` members, used for the
`FeatSecurebootMask[soc_fid.name]` lookup. -/
def SocFamily.fname : SocFamily → String
  | .A1 => "A1"
  | .C1 => "C1"
  | .SC2 => "SC2"
  | .C2 => "C2"
  | .T5 => "T5"
  | .T5D => "T5D"
  | .T7 => "T7"
  | .S4 => "S4"

/-- Model of the `FeatSecurebootMask` enum lookup by family name
(`src/adnl.py` lines 85-94): `A1`, `C1`, `C2` map to `0x1`, `T5`, `T5D`
map to `0x10`, and every other family name is absent, so
`FeatSecurebootMask[name]` raises a `KeyError`. -/
def featSecurebootMask : SocFamily → Option Nat
  | .A1 => some 0x1
  | .C1 => some 0x1
  | .C2 => some 0x1
  | .T5 => some 0x10
  | .T5D => some 0x10
  | _ => none

/-- Model of `is_secureboot_enabled` (`src/adnl.py` lines 215-230).  The
device is abstracted by the stage it reports to `send_cmd_identify`, the
FEAT word of chipinfo page 1 and its SoC family.  The second component
of the result is the list of `(offset, nbytes)` chipinfo-page-1 queries
performed: the source checks the stage first and raises before querying
anything; otherwise `adnl_get_feat` reads `(0x24, 4)`, then
`adnl_get_soc_family_id` reads `(0x4, 4)`, and only then the mask lookup
may raise a `KeyError`.  On success the source returns `feat & sb_mask`
(truthy iff non-zero). -/
def is_secureboot_enabled (stage : Stage) (feat : Nat) (fam : SocFamily) :
    Except String Nat × List (Nat × Nat) :=
  if stage ≠ Stage.ROM then
    (.error ("Non suitable stage:" ++ stage.displayName ++
      " for secureboot query"), [])
  else
    match featSecurebootMask fam with
    | none => (.error ("KeyError: " ++ fam.fname), [(0x24, 4), (0x4, 4)])
    | some m => (.ok (feat &&& m), [(0x24, 4), (0x4, 4)])

/-- Outcome of the device-discovery prologue of `do_adnl_burn`
(`src/adnl.py` lines 512-538), given the result of
`usb.core.find(idVendor=0x1b8e, idProduct=0xc004)` (a working libusb
backend is assumed, so `NoBackendError` does not occur) and the stage the
found device reports.  When `find` returns `None` the source logs
`Device not found` and executes a plain `return`; when a device is found
the burn proceeds from ROM (directly, or after `reboot-romusb` when the
device was seen in TPL), and a device seen in SPL raises
`Unknown stage`. -/
inductive BurnStart where
  | returned
  | errorRaised (msg : String)
  | proceeded (stage : Stage)
  deriving DecidableEq

/-- Model of the prologue of `do_adnl_burn` (`src/adnl.py` lines
507-538) up to the point where the three stage drivers take over. -/
def do_adnl_burn_start (dev : Option Nat) (stage : Stage) : BurnStart :=
  match dev with
  | none => .returned
  | some _ =>
    match stage with
    | .TPL => .proceeded .TPL
    | .ROM => .proceeded .ROM
    | .SPL => .errorRaised ("Unknown stage: " ++ Stage.SPL.displayName)

/-- C6: `is_secureboot_enabled` in ROM stage returns `feat & mask` with
mask `0x01` for families A1, C1, C2 and `0x10` for T5, T5D (truthy iff
the masked bit is set); for SC2, T7 and S4 it raises; and when the
reported stage is not ROM it raises before performing any chip-info
query. -/
theorem is_secureboot_enabled_spec (stage : Stage) (feat : Nat)
    (fam : SocFamily) :
    (stage = Stage.ROM →
      ((fam = .A1 ∨ fam = .C1 ∨ fam = .C2) →
        (is_secureboot_enabled stage feat fam).1 = .ok (feat &&& 0x1)) ∧
      ((fam = .T5 ∨ fam = .T5D) →
        (is_secureboot_enabled stage feat fam).1 = .ok (feat &&& 0x10)) ∧
      ((fam = .SC2 ∨ fam = .T7 ∨ fam = .S4) →
        ∃ e, (is_secureboot_enabled stage feat fam).1 = .error e)) ∧
    (stage ≠ Stage.ROM →
      (∃ e, (is_secureboot_enabled stage feat fam).1 = .error e) ∧
      (is_secureboot_enabled stage feat fam).2 = []) := by
  constructor
  · intro hs
    subst hs
    refine ⟨?_, ?_, ?_⟩
    · rintro (rfl | rfl | rfl) <;> rfl
    · rintro (rfl | rfl) <;> rfl
    · rintro (rfl | rfl | rfl) <;> exact ⟨_, rfl⟩
  · intro hs
    have h' : is_secureboot_enabled stage feat fam =
        (.error ("Non suitable stage:" ++ stage.displayName ++
          " for secureboot query"), []) := by
      unfold is_secureboot_enabled
      rw [if_pos hs]
    rw [h']
    exact ⟨⟨_, rfl⟩, rfl⟩

/-- Witness for C6: in ROM on a T5 with FEAT `0x11` the masked secure
bit `0x10` is returned; in ROM on an SC2 the mask lookup raises; in SPL
the query raises with no chip-info access. -/
theorem is_secureboot_enabled_spec_witness :
    (is_secureboot_enabled Stage.ROM 0x11 SocFamily.T5).1 =
      .ok (0x11 &&& 0x10) ∧
    (∃ e, (is_secureboot_enabled Stage.ROM 0 SocFamily.SC2).1 = .error e) ∧
    ((∃ e, (is_secureboot_enabled Stage.SPL 0 SocFamily.T5).1 = .error e) ∧
      (is_secureboot_enabled Stage.SPL 0 SocFamily.T5).2 = []) :=
  ⟨((is_secureboot_enabled_spec Stage.ROM 0x11 SocFamily.T5).1 rfl).2.1
      (Or.inl rfl),
   ((is_secureboot_enabled_spec Stage.ROM 0 SocFamily.SC2).1 rfl).2.2
      (Or.inl rfl),
   (is_secureboot_enabled_spec Stage.SPL 0 SocFamily.T5).2 (by decide)⟩

/-- C5 counterexample: when `usb.core.find` returns `None` (no USB
device with VID 0x1b8e, PID 0xc004 present), `do_adnl_burn` returns
normally — it does not raise any error. -/
theorem do_adnl_burn_no_device_counterexample :
    do_adnl_burn_start none Stage.ROM = .returned ∧
    ¬ ∃ msg, do_adnl_burn_start none Stage.ROM = .errorRaised msg := by
  refine ⟨rfl, ?_⟩
  rintro ⟨msg, h⟩
  simp [do_adnl_burn_start] at h

/-- C5 (amended): if no USB device with VID 0x1b8e and PID 0xc004 is
present when `do_adnl_burn` starts, it logs `Device not found` and
returns normally (`None`), raising no error. -/
theorem do_adnl_burn_no_device_returns (stage : Stage) :
    do_adnl_burn_start none stage = .returned ∧
    ∀ msg, do_adnl_burn_start none stage ≠ .errorRaised msg := by
  exact ⟨rfl, fun msg h => by simp [do_adnl_burn_start] at h⟩

/-- Lower-case hex digit, as produced by Python's `{:08x}` format. -/
def hexChar (d : Nat) : Char :=
  if d < 10 then Char.ofNat (48 + d) else Char.ofNat (87 + d)

/-- Model of the `'{:08x}'.format(n)` zero-padded 8-digit lower-case hex
rendering used for `download:` frames in `src/adnl.py`. -/
def hex8 (n : Nat) : String :=
  String.mk ((List.range 8).map (fun i => hexChar (n / 16 ^ (7 - i) % 16)))

/-- Model of Python's `n.to_bytes(4, 'little')` (and of the equivalent
list comprehension `[(s >> i) & 0xff for i in range(0, 32, 8)]`). -/
def toLE4 (n : Nat) : List Nat :=
  [n % 256, n / 256 % 256, n / 65536 % 256, n / 16777216 % 256]

/-- One frame written to the bulk-OUT endpoint: either an ASCII command
string or raw payload bytes. -/
inductive Frame where
  | cmd (s : String)
  | data (b : List Nat)

/-- Model of `run_bootrom_stage` (`src/adnl.py` lines 335-378) as the
sequence of frames written to bulk-OUT.  `container` models
`aml_img.item_get(main, sub)` as the byte content of the item; the
source picks `USB`/`DDR_ENC` under secure boot and `USB`/`DDR`
otherwise.  `bl2_size` is the integer parsed from the
`getvar:downloadsize` reply.  `send_burnsteps` is a two-frame
transaction (the command, then the 4-byte little-endian argument).
After the `download:` command the source sends `item.read()` — the
whole item, with no argument limiting the read to `bl2_size` bytes. -/
def run_bootrom_stage (container : String → String → List Nat)
    (has_secureboot : Bool) (bl2_size : Nat) : List Frame :=
  let sub_type := if has_secureboot then "DDR_ENC" else "DDR"
  let item := container "USB" sub_type
  [ .cmd "getvar:serialno",
    .cmd "getvar:getchipinfo-1",
    .cmd "getvar:getchipinfo-0",
    .cmd "getvar:getchipinfo-1",
    .cmd "getvar:getchipinfo-2",
    .cmd "getvar:getchipinfo-3",
    .cmd "setvar:burnsteps", .data (toLE4 0xC0040000),
    .cmd "getvar:getchipinfo-1",
    .cmd "setvar:burnsteps", .data (toLE4 0xC0040001),
    .cmd "getvar:downloadsize",
    .cmd ("download:" ++ hex8 bl2_size),
    .data item,
    .cmd "setvar:burnsteps", .data (toLE4 0xC0040002),
    .cmd "boot" ]

/-- C1: with a 100 KiB `USB`/`DDR` item and `downloadsize` = 0x40, the
payload frame following `download:00000040` carries the whole 102400-byte
item, not the first 64 bytes: `run_bootrom_stage` sends `item.read()`
without any size limit, contradicting its own comment (send only the
part of the image whose size was extracted by `downloadsize`). -/
theorem run_bootrom_stage_sends_whole_item :
    (run_bootrom_stage (fun _ _ => List.replicate 102400 0) false 64).get? 12 =
      some (.cmd ("download:" ++ hex8 64)) ∧
    hex8 64 = "00000040" ∧
    (run_bootrom_stage (fun _ _ => List.replicate 102400 0) false 64).get? 13 =
      some (.data (List.replicate 102400 0)) ∧
    (List.replicate 102400 (0 : Nat)).length = 102400 ∧
    (102400 : Nat) ≠ 64 := by
  refine ⟨rfl, by decide, rfl, by rw [List.length_replicate], by decide⟩

/-- Super-transfer cap of the legacy large-memory helpers
(`src/pyamlboot/pyamlboot.py` line 49). -/
def MAX_LARGE_BLOCK_COUNT : Nat := 65535

/-- The bulk-write loop of `AmlogicSoC._writeLargeMemory`: `blockCount`
writes of `data[offset : offset + blockLength]`. -/
def wlmChunks (data : List Nat) (blockLength : Nat) :
    Nat → Nat → List (List Nat)
  | 0, _ => []
  | n + 1, offset =>
    ((data.drop offset).take blockLength) ::
      wlmChunks data blockLength n (offset + blockLength)

/-- Model of `AmlogicSoC._writeLargeMemory` (`src/pyamlboot/pyamlboot.py`
lines 221-254), returning the list of bulk chunks written.  With
`appendZeros` the source appends `len(data) % blockLength` zero bytes
(`data + pack('b', 0) * append`); otherwise a misaligned length raises
before any transfer.  `blockCount` is `int(len(data) / blockLength)`
plus one when a remainder is left (exact for all realistic sizes). -/
def _writeLargeMemory (data : List Nat) (blockLength : Nat)
    (appendZeros : Bool) : Except String (List (List Nat)) :=
  let padded : Except String (List Nat) :=
    if appendZeros then
      .ok (data ++ List.replicate (data.length % blockLength) 0)
    else if data.length % blockLength ≠ 0 then
      .error "Large Data must be a multiple of block length"
    else .ok data
  match padded with
  | .error e => .error e
  | .ok d =>
    let blockCount := d.length / blockLength +
      (if d.length % blockLength > 0 then 1 else 0)
    .ok (wlmChunks d blockLength blockCount 0)

/-- Super-transfer loop of `AmlogicSoC.writeLargeMemory`
(`src/pyamlboot/pyamlboot.py` lines 266-274): `transferCount` calls of
`_writeLargeMemory` on successive windows of at most
`MAX_LARGE_BLOCK_COUNT * blockLength` bytes. -/
def wlmOuter (data : List Nat) (blockLength : Nat) (appendZeros : Bool) :
    Nat → Nat → Except String (List (List Nat))
  | 0, _ => .ok []
  | n + 1, offset =>
    let writeLength :=
      if data.length < offset + MAX_LARGE_BLOCK_COUNT * blockLength then
        data.length - offset
      else MAX_LARGE_BLOCK_COUNT * blockLength
    match _writeLargeMemory ((data.drop offset).take writeLength)
        blockLength appendZeros with
    | .error e => .error e
    | .ok chunks =>
      match wlmOuter data blockLength appendZeros n (offset + writeLength) with
      | .error e => .error e
      | .ok rest => .ok (chunks ++ rest)

/-- Model of `AmlogicSoC.writeLargeMemory` (`src/pyamlboot/pyamlboot.py`
lines 256-274), returning the full list of bulk chunks written. -/
def writeLargeMemory (data : List Nat) (blockLength : Nat)
    (appendZeros : Bool) : Except String (List (List Nat)) :=
  let blockCount := data.length / blockLength +
    (if data.length % blockLength > 0 then 1 else 0)
  let transferCount := blockCount / MAX_LARGE_BLOCK_COUNT +
    (if blockCount % MAX_LARGE_BLOCK_COUNT > 0 then 1 else 0)
  wlmOuter data blockLength appendZeros transferCount 0

/-- C8: with `appendZeros` false a misaligned buffer raises before any
transfer (first conjunct), but with `appendZeros` true the code pads a
5-byte buffer with `5 % 64 = 5` zeros — not up to the next multiple of
`blockLength = 64` — and sends a single bulk chunk of 10 bytes instead
of one `blockLength`-byte chunk. -/
theorem writeLargeMemory_appendZeros_bug :
    writeLargeMemory (List.replicate 5 1) 64 false =
      .error "Large Data must be a multiple of block length" ∧
    writeLargeMemory (List.replicate 5 1) 64 true =
      .ok [List.replicate 5 1 ++ List.replicate 5 0] ∧
    (List.replicate 5 (1 : Nat) ++ List.replicate 5 0).length = 10 ∧
    (10 : Nat) % 64 ≠ 0 ∧ (10 : Nat) ≠ 64 := by
  refine ⟨rfl, rfl, by decide, by decide, by decide⟩

/-- Bulk chunk size (`USB_BULK_SIZE`, `src/adnl.py` line 26). -/
def USB_BULK_SIZE : Nat := 16384

/-- The fields of a parsed CBW (`class CBW`, `src/adnl.py` lines 96-116)
used by the BL2 loop: `size` (bytes the device expects), `offs` (offset
into the image) and `endFlag` (byte 21; non-zero means done). -/
structure CBWrec where
  size : Nat
  offs : Nat
  endFlag : Nat
  deriving DecidableEq

/-- Inner chunking loop of `run_bl2_stage` (`src/adnl.py` lines
417-428): while `size > 0`, send `download:<to_send:08x>` (expecting
`DATA`) followed by `buf[buf_offs : buf_offs + to_send]`, where
`to_send = min(size, USB_BULK_SIZE)`.  Each element of the result pairs
the hex count announced on the `download:` frame with the payload slice
actually written. -/
def bl2SendChunks (buf : List Nat) (size bufOffs : Nat) :
    List (Nat × List Nat) :=
  if h : 0 < size then
    (min size USB_BULK_SIZE,
      (buf.drop bufOffs).take (min size USB_BULK_SIZE)) ::
      bl2SendChunks buf (size - min size USB_BULK_SIZE)
        (bufOffs + min size USB_BULK_SIZE)
  else []
termination_by size
decreasing_by
  have hb : 0 < USB_BULK_SIZE := by
    unfold USB_BULK_SIZE
    omega
  have : 0 < min size USB_BULK_SIZE := Nat.lt_min.mpr ⟨h, hb⟩
  omega

/-- The chunked transmission performed for one non-final CBW: the source
seeks the `USB`/`UBOOT[_ENC]` item to `cbw.offset()` and reads
`cbw.size()` bytes (`buf = item.read(size)`), then runs the inner
chunking loop on the counter `size`. -/
def bl2Transmission (item : List Nat) (cbw : CBWrec) :
    List (Nat × List Nat) :=
  bl2SendChunks ((item.drop cbw.offs).take cbw.size) cbw.size 0

/-- Model of the CBW loop of `run_bl2_stage` (`src/adnl.py` lines
402-439) over a scripted sequence of CBW replies.  Each iteration
requests a CBW; a CBW with non-zero `endFlag` terminates the loop, any
other CBW performs one chunked transmission (followed by the
`setvar:checksum` exchange, not recorded here).  An exhausted script
(device keeps requesting) is `none`. -/
def run_bl2_loop (item : List Nat) : List CBWrec →
    Option (List (List (Nat × List Nat)))
  | [] => none
  | cbw :: rest =>
    if cbw.endFlag ≠ 0 then some []
    else
      match run_bl2_loop item rest with
      | none => none
      | some ts => some (bl2Transmission item cbw :: ts)

/-- Total payload bytes of one chunked transmission. -/
def transBytes (t : List (Nat × List Nat)) : Nat :=
  t.foldr (fun c acc => c.2.length + acc) 0

/-- The inner chunking loop sends exactly `size` payload bytes when the
window fits in the buffer, each chunk carrying at most `USB_BULK_SIZE`
bytes, and each payload slice as long as its announced `download:`
count. -/
theorem bl2SendChunks_spec (size : Nat) : ∀ (buf : List Nat) (bufOffs : Nat),
    bufOffs + size ≤ buf.length →
    transBytes (bl2SendChunks buf size bufOffs) = size ∧
    ∀ ch ∈ bl2SendChunks buf size bufOffs,
      ch.1 ≤ USB_BULK_SIZE ∧ ch.2.length = ch.1 := by
  induction size using Nat.strong_induction_on with
  | _ size ih =>
    intro buf bufOffs hle
    by_cases h : 0 < size
    · have hb : 0 < USB_BULK_SIZE := by
        unfold USB_BULK_SIZE
        omega
      have hmin : 0 < min size USB_BULK_SIZE := Nat.lt_min.mpr ⟨h, hb⟩
      have hrec := ih (size - min size USB_BULK_SIZE) (by omega) buf
        (bufOffs + min size USB_BULK_SIZE) (by omega)
      have hlen : ((buf.drop bufOffs).take (min size USB_BULK_SIZE)).length
          = min size USB_BULK_SIZE := by
        rw [List.length_take, List.length_drop]
        omega
      rw [bl2SendChunks, dif_pos h]
      constructor
      · unfold transBytes
        simp only [List.foldr_cons]
        rw [hlen]
        have := hrec.1
        unfold transBytes at this
        rw [this]
        omega
      · intro ch hch
        rcases List.mem_cons.mp hch with hhd | htl
        · subst hhd
          exact ⟨Nat.min_le_right _ _, hlen⟩
        · exact hrec.2 ch htl
    · have hz : size = 0 := by omega
      subst hz
      rw [bl2SendChunks, dif_neg h]
      exact ⟨rfl, fun ch hch => absurd hch (List.not_mem_nil ch)⟩

/-- C4: for a scripted sequence of `n` CBWs with `end = 0` followed by
one CBW with `end ≠ 0` (each window fitting in the image item), the BL2
loop terminates after performing exactly the `n` chunked transmissions,
each chunk at most `USB_BULK_SIZE = 16384` bytes and exactly as long as
the count announced on its `download:` frame, and the total number of
image payload bytes sent equals the sum of the `n` size fields. -/
theorem run_bl2_loop_spec (item : List Nat) (cbws : List CBWrec)
    (endC : CBWrec)
    (hflags : ∀ c ∈ cbws, c.endFlag = 0) (hend : endC.endFlag ≠ 0)
    (hfit : ∀ c ∈ cbws, c.offs + c.size ≤ item.length) :
    run_bl2_loop item (cbws ++ [endC]) =
      some (cbws.map (bl2Transmission item)) ∧
    (cbws.map (bl2Transmission item)).length = cbws.length ∧
    ((cbws.map (bl2Transmission item)).map transBytes).sum =
      (cbws.map CBWrec.size).sum ∧
    ∀ t ∈ cbws.map (bl2Transmission item), ∀ ch ∈ t,
      ch.1 ≤ USB_BULK_SIZE ∧ ch.2.length = ch.1 := by
  induction cbws with
  | nil =>
    refine ⟨?_, rfl, rfl, ?_⟩
    · simp only [List.nil_append, run_bl2_loop, if_pos hend]
      rfl
    · intro t ht
      exact absurd ht (List.not_mem_nil t)
  | cons c cs ihc =>
    have hc0 : c.endFlag = 0 := hflags c (List.mem_cons_self c cs)
    have ih := ihc (fun x hx => hflags x (List.mem_cons_of_mem c hx))
      (fun x hx => hfit x (List.mem_cons_of_mem c hx))
    have hwin : (0 : Nat) + c.size ≤
        ((item.drop c.offs).take c.size).length := by
      rw [List.length_take, List.length_drop]
      have := hfit c (List.mem_cons_self c cs)
      omega
    have hchunks := bl2SendChunks_spec c.size
      ((item.drop c.offs).take c.size) 0 hwin
    refine ⟨?_, ?_, ?_, ?_⟩
    · simp [run_bl2_loop, hc0, ih.1]
    · simp
    · simp only [List.map_cons, List.sum_cons]
      rw [ih.2.2.1]
      unfold bl2Transmission
      rw [hchunks.1]
    · intro t ht
      rcases List.mem_cons.mp ht with hhd | htl
      · subst hhd
        exact hchunks.2
      · exact ih.2.2.2 t htl

/-- Witness for C4: two CBWs (4 bytes at offset 0, then 2 bytes at
offset 4) followed by a terminator on an 8-byte item give exactly two
transmissions totalling 6 payload bytes. -/
theorem run_bl2_loop_spec_witness :
    run_bl2_loop [1, 2, 3, 4, 5, 6, 7, 8]
        ([⟨4, 0, 0⟩, ⟨2, 4, 0⟩] ++ [⟨0, 0, 1⟩]) =
      some ([⟨4, 0, 0⟩, ⟨2, 4, 0⟩].map
        (bl2Transmission [1, 2, 3, 4, 5, 6, 7, 8])) ∧
    (([⟨4, 0, 0⟩, ⟨2, 4, 0⟩].map
        (bl2Transmission [1, 2, 3, 4, 5, 6, 7, 8])).map transBytes).sum =
      ([(⟨4, 0, 0⟩ : CBWrec), ⟨2, 4, 0⟩].map CBWrec.size).sum :=
  ⟨(run_bl2_loop_spec [1, 2, 3, 4, 5, 6, 7, 8] [⟨4, 0, 0⟩, ⟨2, 4, 0⟩]
      ⟨0, 0, 1⟩ (by decide) (by decide) (by decide)).1,
   (run_bl2_loop_spec [1, 2, 3, 4, 5, 6, 7, 8] [⟨4, 0, 0⟩, ⟨2, 4, 0⟩]
      ⟨0, 0, 1⟩ (by decide) (by decide) (by decide)).2.2.1⟩
